import Mathlib

/-!
Verification of the data-preparation pipeline of a time-indexed dashboard.

The definitions below are a shallow embedding of the Python helpers in
`app/utils/common.py` and of the Mongo loader in the Elhub page:

* tables are lists (row-major for the CSV loader, column-major for the
  scaling helper);
* machine floats are modelled as rationals; the two irrational per-column
  operations the scaler can perform (`sqrt` inside the standard deviation
  and `log1p`) are taken as function parameters, since no property proved
  here depends on their values;
* timestamp parsing (`pd.to_datetime(..., errors="coerce")`) is modelled
  by a parse function returning `Option`, `none` standing for `NaT`;
* a Python `dict` counting occurrences is modelled as a total function
  `String → Nat`, `0` standing for "key absent".
-/

set_option autoImplicit false

namespace Dashboard

/-! ### Decimal rendering of naturals (Python `str(int)` for counts) -/

def digitChar (n : Nat) : Char := Char.ofNat (48 + n)

/-- Fuel-driven decimal digits; `natDigits` supplies enough fuel. -/
def natDigitsAux : Nat → Nat → List Char
  | 0, _ => []
  | fuel + 1, n =>
    if n < 10 then [digitChar n]
    else natDigitsAux fuel (n / 10) ++ [digitChar (n % 10)]

def natDigits (n : Nat) : List Char := natDigitsAux (n + 1) n

def natToString (n : Nat) : String := String.mk (natDigits n)

/-! ### Timestamps and month buckets

`TS` is the part of a parsed UTC timestamp the month helpers inspect:
its calendar year and month.  `monthLabel` embeds
`index.to_period("M").astype(str)`, the zero-padded `YYYY-MM` rendering. -/

structure TS where
  year : Nat
  month : Nat
  deriving DecidableEq, Repr

/-- Left-pad the decimal rendering of `n` with zeros up to width `w`. -/
def padDecimal (w : Nat) (n : Nat) : String :=
  String.mk (List.replicate (w - (natDigits n).length) '0' ++ natDigits n)

def monthLabel (ts : TS) : String :=
  padDecimal 4 ts.year ++ "-" ++ padDecimal 2 ts.month

/-! ### `make_unique` (from `app/utils/common.py`)

```python
def make_unique(names: list[str]) -> list[str]:
    """Ensure unique names by appending (2), (3), ... if needed."""
    seen = dict()
    unique = []
    for n in names:
        if n not in seen:
            seen[n] = 1
            unique.append(n)
        else:
            seen[n] += 1
            unique.append(n + " (" + str(seen[n]) + ")")
    return unique
```
-/

/-- The formatted name: `n + " (" + str(k) + ")"`. -/
def suffixName (n : String) (k : Nat) : String :=
  n ++ " (" ++ natToString k ++ ")"

/-- `seen[k] = v` on the counting dict (absence is count 0). -/
def updateCount (seen : String → Nat) (k : String) (v : Nat) : String → Nat :=
  fun x => if x = k then v else seen x

def makeUniqueGo (seen : String → Nat) : List String → List String
  | [] => []
  | n :: rest =>
    if seen n = 0 then
      n :: makeUniqueGo (updateCount seen n 1) rest
    else
      suffixName n (seen n + 1) :: makeUniqueGo (updateCount seen n (seen n + 1)) rest

def make_unique (names : List String) : List String :=
  makeUniqueGo (fun _ => 0) names

/-! ### `prettify_column_name` (from `app/utils/common.py`)

```python
def prettify_column_name(original: str) -> str:
    match = re.match(r"^(.*?)(\s*\(.*\)\s*)$", original.strip())
    if match:
        base, units = match.group(1), match.group(2)
    else:
        base, units = original.strip(), ""
    base = base.replace("_", " ")
    base = re.sub(r"(\d+)(m)\b", r"\1 \2", base, flags=re.IGNORECASE)
    base = re.sub(r"\s+", " ", base).strip().title()
    return base + units
```

Strings are processed as their character lists.  The regex `\s` class is
modelled by the six ASCII whitespace characters; `.` never meets a newline
in the column names considered here. -/

def isPySpace (c : Char) : Bool :=
  c = ' ' || c = '\t' || c = '\n' || c = '\x0d' || c = '\x0b' || c = '\x0c'

/-- Python `str.strip()` on a character list. -/
def stripChars (s : List Char) : List Char :=
  ((s.dropWhile isPySpace).reverse.dropWhile isPySpace).reverse

/-- Locate the first `'('`; the lazy group `(.*?)` makes the base end at the
first parenthesis, with the whitespace run just before it going to the
unit-suffix group `(\s*\(.*\)\s*)`. -/
def splitUnitsAux (revBase : List Char) : List Char → Option (List Char × List Char)
  | [] => none
  | c :: rest =>
    if c = '(' then
      some ((revBase.dropWhile isPySpace).reverse,
            (revBase.takeWhile isPySpace).reverse ++ '(' :: rest)
    else splitUnitsAux (c :: revBase) rest

/-- Split a stripped name into base and parenthesized unit suffix, following
`re.match(r"^(.*?)(\s*\(.*\)\s*)$", s)`: the input is already stripped, so
the suffix group matches exactly when the string ends in `')'` and contains
a `'('`. -/
def splitBaseUnits (s : List Char) : List Char × List Char :=
  if s.getLast? = some ')' then
    match splitUnitsAux [] s with
    | some (b, u) => (b, u)
    | none => (s, [])
  else (s, [])

/-- Python regex `\w` over ASCII. -/
def isWordChar (c : Char) : Bool := c.isAlphanum || c = '_'

/-- Scanner state for `re.sub(r"(\d+)(m)\b", r"\1 \2", ..., IGNORECASE)`. -/
inductive DigitMState where
  | start
  | digits (ds : List Char)
  | digitsM (ds : List Char) (m : Char)

/-- One left-to-right pass inserting a space between a digit run and a
following `m`/`M` that sits at a word boundary.  Pending digit runs are
carried reversed in the state. -/
def digitMGo : DigitMState → List Char → List Char
  | .start, [] => []
  | .start, c :: rest =>
    if c.isDigit then digitMGo (.digits [c]) rest else c :: digitMGo .start rest
  | .digits ds, [] => ds.reverse
  | .digits ds, c :: rest =>
    if c.isDigit then digitMGo (.digits (c :: ds)) rest
    else if c = 'm' || c = 'M' then digitMGo (.digitsM ds c) rest
    else ds.reverse ++ c :: digitMGo .start rest
  | .digitsM ds m, [] => ds.reverse ++ [' ', m]
  | .digitsM ds m, c :: rest =>
    if isWordChar c then
      if c.isDigit then ds.reverse ++ m :: digitMGo (.digits [c]) rest
      else ds.reverse ++ m :: c :: digitMGo .start rest
    else ds.reverse ++ ' ' :: m :: c :: digitMGo .start rest

/-- `re.sub(r"\s+", " ", s)`: collapse whitespace runs to a single space. -/
def collapseWsGo : Bool → List Char → List Char
  | _, [] => []
  | prevSpace, c :: rest =>
    if isPySpace c then
      if prevSpace then collapseWsGo true rest else ' ' :: collapseWsGo true rest
    else c :: collapseWsGo false rest

/-- Python `str.title()` over ASCII letters: uppercase a letter after a
non-letter, lowercase a letter after a letter. -/
def titleGo : Bool → List Char → List Char
  | _, [] => []
  | prevCased, c :: rest =>
    if c.isAlpha then
      (if prevCased then c.toLower else c.toUpper) :: titleGo true rest
    else c :: titleGo false rest

def prettify_column_name (original : String) : String :=
  let stripped := stripChars original.data
  let split := splitBaseUnits stripped
  let base1 := split.1.map (fun c => if c = '_' then ' ' else c)
  let base2 := digitMGo .start base1
  let base3 := titleGo false (stripChars (collapseWsGo false base2))
  String.mk (base3 ++ split.2)

/-! ### `load_time_indexed_data` (from `app/utils/common.py`)

```python
def load_time_indexed_data(csv_file_path: Path) -> pd.DataFrame:
    data_frame = pd.read_csv(csv_file_path, encoding="utf-8-sig", sep=",")
    if data_frame.columns.duplicated().any():
        data_frame = data_frame.loc[:, ~data_frame.columns.duplicated()].copy()
    if "time" not in data_frame.columns:
        raise KeyError("The 'time' column is missing from the dataset.")
    data_frame["time"] = pd.to_datetime(data_frame["time"], errors="coerce", utc=True)
    data_frame = data_frame.sort_values("time").reset_index(drop=True)
    data_frame = data_frame.set_index("time")
    return data_frame
```

The already-parsed CSV text arrives as a header plus cell rows; timestamp
parsing is a parameter `parse` with `none` for `NaT`.  `sort_values` sorts
ascending with missing keys placed last (`na_position="last"`);
`set_index` removes the `time` column and makes it the row key. -/

/-- `~columns.duplicated()`: the position mask keeping only the first
occurrence of each column name. -/
def keepMask (seen : List String) : List String → List Bool
  | [] => []
  | c :: rest =>
    if seen.contains c then false :: keepMask seen rest
    else true :: keepMask (c :: seen) rest

/-- Select the positions of a row where the mask holds. -/
def applyMask : List Bool → List String → List String
  | b :: bs, x :: xs => if b then x :: applyMask bs xs else applyMask bs xs
  | _, _ => []

/-- The header after duplicate columns are removed (first occurrence kept). -/
def dedupColumns (header : List String) : List String :=
  applyMask (keepMask [] header) header

/-- Index of the first occurrence of `s`. -/
def firstIdxOf (s : String) : List String → Nat
  | [] => 0
  | c :: rest => if c = s then 0 else firstIdxOf s rest + 1

/-- Ascending order on parsed timestamps with `NaT` sorted last. -/
def keyLE : Option Int → Option Int → Bool
  | none, none => true
  | none, some _ => false
  | some _, none => true
  | some a, some b => decide (a ≤ b)

def insertByKey (x : Option Int × List String) :
    List (Option Int × List String) → List (Option Int × List String)
  | [] => [x]
  | y :: rest => if keyLE x.1 y.1 then x :: y :: rest else y :: insertByKey x rest

/-- Ascending sort by the parsed `time` key (`sort_values("time")`). -/
def sortByKey (rows : List (Option Int × List String)) :
    List (Option Int × List String) :=
  rows.foldr insertByKey []

/-- A loaded frame: the remaining column names, and one entry per CSV row
holding the parsed time index (`none` = `NaT`) and the other cells. -/
structure LoadedFrame where
  columns : List String
  rows : List (Option Int × List String)
  deriving DecidableEq, Repr

def missingTimeMsg : String := "KeyError: the time column is missing from the dataset"

def load_time_indexed_data (parse : String → Option Int)
    (header : List String) (rows : List (List String)) :
    Except String LoadedFrame :=
  let mask := keepMask [] header
  let hdr := applyMask mask header
  let rws := rows.map (applyMask mask)
  if hdr.contains "time" then
    let tIdx := firstIdxOf "time" hdr
    let keyed := rws.map (fun r => (parse (r.getD tIdx ""), r.eraseIdx tIdx))
    Except.ok ⟨hdr.eraseIdx tIdx, sortByKey keyed⟩
  else
    Except.error missingTimeMsg

/-! ### `filter_by_month_range` (from `app/utils/common.py`)

```python
def filter_by_month_range(time_indexed_data, start_month, end_month):
    month_strings = time_indexed_data.index.to_period("M").astype(str)
    mask = (month_strings >= start_month) & (month_strings <= end_month)
    return time_indexed_data.loc[mask].copy()
```

A time-indexed table is a list of rows keyed by their timestamp.  The two
comparisons are Python string comparisons, lexicographic on code points,
stated on the character lists underlying the labels. -/

def filter_by_month_range {α : Type} (table : List (TS × α))
    (startMonth endMonth : String) : List (TS × α) :=
  table.filter (fun r =>
    decide (startMonth.data ≤ (monthLabel r.1).data) &&
    decide ((monthLabel r.1).data ≤ endMonth.data))

/-! ### `scale_numeric_frame` (from `app/utils/common.py`)

```python
def scale_numeric_frame(frame, column_names, method="raw"):
    scaled = frame.copy()
    if method == "raw":
        return scaled, "Values"
    for col in column_names:
        series = scaled[col].astype(float)
        if method == "zscore":
            std = series.std()
            scaled[col] = (series - series.mean()) / (std if std != 0 else 1.0)
        elif method == "minmax":
            rng = series.max() - series.min()
            scaled[col] = (series - series.min()) / (rng if rng != 0 else 1.0)
        elif method == "log1p":
            scaled[col] = np.log1p(series.clip(lower=0))
        else:
            scaled[col] = series
    ylabel = LABELS.get(method, "Values")
    # LABELS maps raw to "Values", zscore to "Z-score",
    # minmax to "Scaled 0–1" and log1p to "log1p(value)"
    return scaled, ylabel
```

The frame is held column-major (name, values); floats are rationals, so
`astype(float)` is the identity.  `sq` models the square root inside the
sample standard deviation and `lg` models `np.log1p`; both are parameters
because their values are irrational and no claim depends on them. -/

abbrev NamedFrame : Type := List (String × List ℚ)

def seriesMin : List ℚ → ℚ
  | [] => 0
  | h :: t => t.foldl min h

def seriesMax : List ℚ → ℚ
  | [] => 0
  | h :: t => t.foldl max h

def seriesMean (xs : List ℚ) : ℚ := xs.sum / xs.length

/-- Sample standard deviation (pandas `Series.std()`, `ddof=1`), with the
square root abstracted as `sq`. -/
def seriesStd (sq : ℚ → ℚ) (xs : List ℚ) : ℚ :=
  sq ((xs.map (fun x => (x - seriesMean xs) ^ 2)).sum / ((xs.length : ℚ) - 1))

def zscoreTransform (sq : ℚ → ℚ) (xs : List ℚ) : List ℚ :=
  xs.map (fun x => (x - seriesMean xs) /
    (if seriesStd sq xs ≠ 0 then seriesStd sq xs else 1))

def minmaxTransform (xs : List ℚ) : List ℚ :=
  xs.map (fun x => (x - seriesMin xs) /
    (if seriesMax xs - seriesMin xs ≠ 0 then seriesMax xs - seriesMin xs else 1))

/-- `np.log1p(series.clip(lower=0))` with `log1p` abstracted as `lg`. -/
def log1pTransform (lg : ℚ → ℚ) (xs : List ℚ) : List ℚ :=
  xs.map (fun x => lg (max x 0))

/-- The body of the `for col in column_names` loop for one column. -/
def transformColumn (sq lg : ℚ → ℚ) (method : String) (xs : List ℚ) : List ℚ :=
  if method = "zscore" then zscoreTransform sq xs
  else if method = "minmax" then minmaxTransform xs
  else if method = "log1p" then log1pTransform lg xs
  else xs

/-- `scaled[col] = ...`: replace the values of every column named `col`. -/
def assignColumn (sq lg : ℚ → ℚ) (method : String)
    (frame : NamedFrame) (col : String) : NamedFrame :=
  frame.map (fun p => if p.1 = col then (p.1, transformColumn sq lg method p.2) else p)

def ylabelFor (method : String) : String :=
  if method = "raw" then "Values"
  else if method = "zscore" then "Z-score"
  else if method = "minmax" then "Scaled 0–1"
  else if method = "log1p" then "log1p(value)"
  else "Values"

def scale_numeric_frame (sq lg : ℚ → ℚ) (frame : NamedFrame)
    (columnNames : List String) (method : String) : NamedFrame × String :=
  if method = "raw" then (frame, "Values")
  else (columnNames.foldl (assignColumn sq lg method) frame, ylabelFor method)

/-! ### `load_data_from_mongo` (from `app/pages/3_📈_Elhub.py`)

```python
def load_data_from_mongo() -> pd.DataFrame:
    docs = list(coll.find(all documents, dropping the internal _id))
    df = pd.DataFrame(docs)
    df["start_time"] = pd.to_datetime(df["start_time"], errors="coerce", utc=True)
    df["quantity_kwh"] = pd.to_numeric(df["quantity_kwh"], errors="coerce")
    df = df.dropna(subset=["start_time", "quantity_kwh"])
    df["year"] = df["start_time"].dt.year
    df["month"] = df["start_time"].dt.month
    return df
```

Documents are key/value lists; `pd.DataFrame(docs)` has as columns the
union of keys in order of first appearance, and reading `df["start_time"]`
raises a `KeyError` when that column does not exist — in particular on the
empty document list, whose frame has no columns at all. -/

def dfColumns (docs : List (List (String × String))) : List String :=
  docs.foldl (fun acc d => acc ++ (d.map Prod.fst).filter (fun k => !acc.contains k)) []

structure ElhubRow where
  start_time : TS
  quantity_kwh : ℚ
  year : Nat
  month : Nat
  fields : List (String × String)
  deriving DecidableEq, Repr

def load_data_from_mongo (parseTime : String → Option TS)
    (parseNum : String → Option ℚ)
    (docs : List (List (String × String))) : Except String (List ElhubRow) :=
  if !(dfColumns docs).contains "start_time" then
    Except.error "KeyError: start_time"
  else if !(dfColumns docs).contains "quantity_kwh" then
    Except.error "KeyError: quantity_kwh"
  else
    Except.ok (docs.filterMap (fun d =>
      match (d.lookup "start_time").bind parseTime,
            (d.lookup "quantity_kwh").bind parseNum with
      | some ts, some q => some ⟨ts, q, ts.year, ts.month, d⟩
      | _, _ => none))

/-- A concrete timestamp parser recognising the two dates used in the
counterexample inputs; every other cell is unparsable (`NaT`). -/
def exParse : String → Option Int :=
  fun s =>
    if s = "2020-01-01" then some 0
    else if s = "2020-01-02" then some 1
    else none

/-! ## Helper lemmas -/

/-- `makeUniqueGo` copies a duplicate-free list whose names the counting
dict has never seen. -/
theorem makeUniqueGo_eq_self : ∀ (l : List String) (seen : String → Nat),
    (∀ n ∈ l, seen n = 0) → l.Nodup → makeUniqueGo seen l = l
  | [], _, _, _ => rfl
  | n :: rest, seen, h0, hnd => by
    have hn : seen n = 0 := h0 n (List.mem_cons_self n rest)
    have hrest := List.nodup_cons.mp hnd
    simp only [makeUniqueGo, if_pos hn]
    refine congrArg (n :: ·) (makeUniqueGo_eq_self rest _ ?_ hrest.2)
    intro m hm
    have hmn : m ≠ n := fun e => hrest.1 (e ▸ hm)
    simpa [updateCount, hmn] using h0 m (List.mem_cons_of_mem _ hm)

theorem foldl_min_le_init : ∀ (l : List ℚ) (a : ℚ), l.foldl min a ≤ a
  | [], a => le_refl a
  | x :: t, a => le_trans (foldl_min_le_init t (min a x)) (min_le_left a x)

theorem foldl_min_le_mem : ∀ (l : List ℚ) (a x : ℚ), x ∈ l → l.foldl min a ≤ x
  | y :: t, a, x, hx => by
    rcases List.mem_cons.mp hx with rfl | hx'
    · exact le_trans (foldl_min_le_init t (min a x)) (min_le_right a x)
    · exact foldl_min_le_mem t (min a y) x hx'

theorem le_foldl_max_init : ∀ (l : List ℚ) (a : ℚ), a ≤ l.foldl max a
  | [], a => le_refl a
  | x :: t, a => le_trans (le_max_left a x) (le_foldl_max_init t (max a x))

theorem le_foldl_max_mem : ∀ (l : List ℚ) (a x : ℚ), x ∈ l → x ≤ l.foldl max a
  | y :: t, a, x, hx => by
    rcases List.mem_cons.mp hx with rfl | hx'
    · exact le_trans (le_max_right a x) (le_foldl_max_init t (max a x))
    · exact le_foldl_max_mem t (max a y) x hx'

theorem seriesMin_le_mem (xs : List ℚ) (x : ℚ) (hx : x ∈ xs) : seriesMin xs ≤ x := by
  cases xs with
  | nil => cases hx
  | cons h t =>
    rcases List.mem_cons.mp hx with rfl | hx'
    · exact foldl_min_le_init t x
    · exact foldl_min_le_mem t h x hx'

theorem mem_le_seriesMax (xs : List ℚ) (x : ℚ) (hx : x ∈ xs) : x ≤ seriesMax xs := by
  cases xs with
  | nil => cases hx
  | cons h t =>
    rcases List.mem_cons.mp hx with rfl | hx'
    · exact le_foldl_max_init t x
    · exact le_foldl_max_mem t h x hx'

/-- Per-column content of claim C6: min-max scaled values sit in `[0, 1]`
when the column has a genuine range, and are all `0` otherwise. -/
theorem minmaxTransform_bounds (xs : List ℚ) :
    (seriesMax xs ≠ seriesMin xs → ∀ v ∈ minmaxTransform xs, 0 ≤ v ∧ v ≤ 1) ∧
    (seriesMax xs = seriesMin xs → ∀ v ∈ minmaxTransform xs, v = 0) := by
  constructor
  · intro hne v hv
    simp only [minmaxTransform, List.mem_map] at hv
    obtain ⟨x, hx, rfl⟩ := hv
    have hmin := seriesMin_le_mem xs x hx
    have hmax := mem_le_seriesMax xs x hx
    have hle : seriesMin xs ≤ seriesMax xs := le_trans hmin hmax
    have hpos : 0 < seriesMax xs - seriesMin xs :=
      sub_pos.mpr (lt_of_le_of_ne hle (Ne.symm hne))
    rw [if_pos (ne_of_gt hpos)]
    exact ⟨div_nonneg (sub_nonneg.mpr hmin) (le_of_lt hpos),
           (div_le_one hpos).mpr (sub_le_sub_right hmax _)⟩
  · intro heq v hv
    simp only [minmaxTransform, List.mem_map] at hv
    obtain ⟨x, hx, rfl⟩ := hv
    have hrng : ¬ seriesMax xs - seriesMin xs ≠ 0 := by
      rw [heq, sub_self]
      exact not_not_intro rfl
    rw [if_neg hrng, div_one, sub_eq_zero]
    exact le_antisymm (heq ▸ mem_le_seriesMax xs x hx) (seriesMin_le_mem xs x hx)

/-- Positions whose column name is outside the selected list pass through
the assignment loop of `scale_numeric_frame` untouched. -/
theorem foldl_assign_getElem (sq lg : ℚ → ℚ) (method : String) :
    ∀ (cols : List String) (frame : NamedFrame) (i : Nat) (p : String × List ℚ),
      frame[i]? = some p → p.1 ∉ cols →
      (cols.foldl (assignColumn sq lg method) frame)[i]? = some p
  | [], _, _, _, hp, _ => hp
  | c :: cs, frame, i, p, hp, hnot => by
    have hne : p.1 ≠ c := fun e => hnot (e ▸ List.mem_cons_self c cs)
    have h1 : (assignColumn sq lg method frame c)[i]? = some p := by
      rw [assignColumn, List.getElem?_map, hp, Option.map_some', if_neg hne]
    exact foldl_assign_getElem sq lg method cs _ i p h1
      (fun hm => hnot (List.mem_cons_of_mem _ hm))

/-! ## Claims -/

/-- Claim C2 (code bug): the docstring of `make_unique` promises unique
output names, but on the input `["a", "a (2)", "a"]` the code emits the
name `"a (2)"` twice: the suffixed rendering of the third element collides
with the second input name, which is passed through verbatim. -/
theorem make_unique_duplicate_output :
    make_unique ["a", "a (2)", "a"] = ["a", "a (2)", "a (2)"] ∧
    ¬ (["a", "a (2)", "a (2)"] : List String).Nodup := by decide

/-- Claim C3 (counterexample): `make_unique` is not idempotent.  On the
output `["a", "a (2)", "a (2)"]` of `make_unique ["a", "a (2)", "a"]`, a
second application renames the second `"a (2)"` to `"a (2) (2)"`. -/
theorem make_unique_not_idempotent :
    make_unique ["a", "a (2)", "a"] = ["a", "a (2)", "a (2)"] ∧
    make_unique (make_unique ["a", "a (2)", "a"]) = ["a", "a (2)", "a (2) (2)"] ∧
    (["a", "a (2)", "a (2) (2)"] : List String) ≠ ["a", "a (2)", "a (2)"] := by
  decide

/-- Claim C3 (amended): whenever the output of `make_unique` is
duplicate-free — which the counterexample shows can fail — applying
`make_unique` to that output returns it unchanged. -/
theorem make_unique_idempotent_of_nodup_output (names : List String)
    (h : (make_unique names).Nodup) :
    make_unique (make_unique names) = make_unique names :=
  makeUniqueGo_eq_self (make_unique names) (fun _ => 0) (fun _ _ => rfl) h

theorem make_unique_idempotent_of_nodup_output_witness :
    (make_unique ["a", "b"]).Nodup ∧
      make_unique (make_unique ["a", "b"]) = make_unique ["a", "b"] :=
  ⟨by decide, make_unique_idempotent_of_nodup_output ["a", "b"] (by decide)⟩

/-- Claim C7: `prettify_column_name` maps the two test vectors of the spec
to the stated outputs, inserting a space between the digits and the
following `m` and preserving the unit suffix verbatim. -/
theorem prettify_column_name_spec_vectors :
    prettify_column_name "wind_speed_10m (m/s)" = "Wind Speed 10 M (m/s)" ∧
    prettify_column_name "temperature_2m (°C)" = "Temperature 2 M (°C)" := by
  decide

/-- Claim C9: on an empty document collection the Mongo loader does not
return an empty table; the frame built from zero documents has no columns,
so reading the required `start_time` column raises a `KeyError` before any
row-dropping occurs. -/
theorem load_data_from_mongo_empty_error (parseTime : String → Option TS)
    (parseNum : String → Option ℚ) :
    load_data_from_mongo parseTime parseNum [] = Except.error "KeyError: start_time" :=
  rfl

/-- Claim C4: a row survives `filter_by_month_range` exactly when its
`YYYY-MM` label lies lexicographically within `[start, end]` inclusive, and
an inverted range yields the empty table rather than an error. -/
theorem filter_by_month_range_mem_iff {α : Type} (table : List (TS × α))
    (startMonth endMonth : String) :
    (∀ r : TS × α,
      r ∈ filter_by_month_range table startMonth endMonth ↔
        r ∈ table ∧ startMonth ≤ monthLabel r.1 ∧ monthLabel r.1 ≤ endMonth) ∧
    (endMonth < startMonth →
      filter_by_month_range table startMonth endMonth = []) := by
  have hle : ∀ a b : String, a ≤ b ↔ a.data ≤ b.data := fun a b =>
    @String.le_iff_toList_le a b
  constructor
  · intro r
    simp only [filter_by_month_range, List.mem_filter, Bool.and_eq_true,
      decide_eq_true_eq, hle]
  · intro hlt
    have hlt' : endMonth.data < startMonth.data := String.lt_iff_toList_lt.mp hlt
    rw [filter_by_month_range, List.filter_eq_nil_iff]
    intro r _
    simp only [Bool.and_eq_true, decide_eq_true_eq, not_and]
    intro hs he
    exact absurd (le_trans hs he) (not_le.mpr hlt')

theorem filter_by_month_range_mem_iff_witness :
    ("2021-02" : String) < "2021-06" ∧
      filter_by_month_range [(TS.mk 2021 5, 0)] "2021-06" "2021-02" = [] := by
  have h : ("2021-02" : String) < "2021-06" := String.lt_iff_toList_lt.mpr (by decide)
  exact ⟨h, (filter_by_month_range_mem_iff [(TS.mk 2021 5, 0)] "2021-06" "2021-02").2 h⟩

/-- Claim C5: the CSV loader fails with its missing-column error exactly
when, after duplicate columns are removed, no column is literally named
`time`; when `time` is present it returns a loaded table. -/
theorem load_time_indexed_data_missing_time_iff (parse : String → Option Int)
    (header : List String) (rows : List (List String)) :
    (load_time_indexed_data parse header rows = Except.error missingTimeMsg ↔
      "time" ∉ dedupColumns header) ∧
    ((∃ f, load_time_indexed_data parse header rows = Except.ok f) ↔
      "time" ∈ dedupColumns header) := by
  unfold load_time_indexed_data dedupColumns
  by_cases h : (applyMask (keepMask [] header) header).contains "time"
  · have hmem : "time" ∈ applyMask (keepMask [] header) header := by
      simpa [List.contains] using h
    rw [if_pos h]
    constructor
    · simp [hmem]
    · exact ⟨fun _ => hmem, fun _ => ⟨_, rfl⟩⟩
  · have hmem : "time" ∉ applyMask (keepMask [] header) header := by
      simpa [List.contains] using h
    rw [if_neg h]
    constructor
    · simp [hmem]
    · simp [hmem]

/-- Claim C6: min-max scaling a selected column through
`scale_numeric_frame` yields values in `[0, 1]` when the column maximum
differs from its minimum, and the all-zero column when they coincide. -/
theorem scale_numeric_frame_minmax_bounds (sq lg : ℚ → ℚ) (frame : NamedFrame)
    (c : String) (i : Nat) (xs ys : List ℚ)
    (hin : frame[i]? = some (c, xs))
    (hout : ((scale_numeric_frame sq lg frame [c] "minmax").1)[i]? = some (c, ys)) :
    (seriesMax xs ≠ seriesMin xs → ∀ v ∈ ys, 0 ≤ v ∧ v ≤ 1) ∧
    (seriesMax xs = seriesMin xs → ∀ v ∈ ys, v = 0) := by
  have hstep : (scale_numeric_frame sq lg frame [c] "minmax").1 =
      frame.map (fun p => if p.1 = c then (p.1, minmaxTransform p.2) else p) := rfl
  rw [hstep, List.getElem?_map, hin, Option.map_some', if_pos rfl] at hout
  have hys : ys = minmaxTransform xs := by
    injection hout with h
    exact (congrArg Prod.snd h).symm
  rw [hys]
  exact minmaxTransform_bounds xs

theorem scale_numeric_frame_minmax_bounds_witness :
    minmaxTransform [(1 : ℚ), 2] = [0, 1] ∧ (0 ≤ (0 : ℚ) ∧ (0 : ℚ) ≤ 1) := by
  have hmm : minmaxTransform [(1 : ℚ), 2] = [0, 1] := by
    norm_num [minmaxTransform, seriesMin, seriesMax, min_def, max_def]
  refine ⟨hmm, ?_⟩
  refine (scale_numeric_frame_minmax_bounds id id [("t", [1, 2])] "t" 0 [1, 2]
      (minmaxTransform [1, 2]) rfl rfl).1 ?_ 0 ?_
  · norm_num [seriesMin, seriesMax, min_def, max_def]
  · rw [hmm]
    exact List.mem_cons_self 0 [1]

/-- Claim C8: `scale_numeric_frame` leaves every column whose name is not
in the selected list unchanged, position for position, whatever the
scaling method. -/
theorem scale_numeric_frame_preserves_unselected (sq lg : ℚ → ℚ)
    (frame : NamedFrame) (cols : List String) (method : String) (i : Nat)
    (p : String × List ℚ) (hp : frame[i]? = some p) (hnot : p.1 ∉ cols) :
    ((scale_numeric_frame sq lg frame cols method).1)[i]? = some p := by
  rw [scale_numeric_frame]
  by_cases hm : method = "raw"
  · rw [if_pos hm]
    exact hp
  · rw [if_neg hm]
    exact foldl_assign_getElem sq lg method cols frame i p hp hnot

theorem scale_numeric_frame_preserves_unselected_witness :
    ((scale_numeric_frame id id [("wind", [3, 4]), ("temp", [5])] ["wind"]
        "minmax").1)[1]? = some ("temp", [5]) :=
  scale_numeric_frame_preserves_unselected id id
    [("wind", [3, 4]), ("temp", [5])] ["wind"] "minmax" 1 ("temp", [5]) rfl
    (by decide)

/-- Claim C10: a method string other than raw, zscore, minmax and log1p raises
no error: the loop body falls through to the identity assignment, so the
frame comes back unchanged, labelled "Values". -/
theorem scale_numeric_frame_unknown_method (sq lg : ℚ → ℚ) (frame : NamedFrame)
    (cols : List String) (method : String)
    (hm : method ∉ (["raw", "zscore", "minmax", "log1p"] : List String)) :
    scale_numeric_frame sq lg frame cols method = (frame, "Values") := by
  have h1 : method ≠ "raw" := fun e => hm (by rw [e]; decide)
  have h2 : method ≠ "zscore" := fun e => hm (by rw [e]; decide)
  have h3 : method ≠ "minmax" := fun e => hm (by rw [e]; decide)
  have h4 : method ≠ "log1p" := fun e => hm (by rw [e]; decide)
  have hassign : ∀ (f : NamedFrame) (c : String),
      assignColumn sq lg method f c = f := by
    intro f c
    rw [assignColumn]
    have ht : (fun p : String × List ℚ =>
        if p.1 = c then (p.1, transformColumn sq lg method p.2) else p) =
        fun p => p := by
      funext p
      rw [transformColumn, if_neg h2, if_neg h3, if_neg h4]
      split <;> rfl
    rw [ht, List.map_id']
  have hfold : ∀ (cs : List String) (f : NamedFrame),
      cs.foldl (assignColumn sq lg method) f = f := by
    intro cs
    induction cs with
    | nil => intro f; rfl
    | cons c cs ih =>
      intro f
      rw [List.foldl_cons, hassign]
      exact ih f
  rw [scale_numeric_frame, if_neg h1, hfold,
    ylabelFor, if_neg h1, if_neg h2, if_neg h3, if_neg h4]

theorem scale_numeric_frame_unknown_method_witness :
    ("median" : String) ∉ (["raw", "zscore", "minmax", "log1p"] : List String) ∧
      scale_numeric_frame id id [("temp", [1, 2])] ["temp"] "median" =
        ([("temp", [1, 2])], "Values") :=
  ⟨by decide,
    scale_numeric_frame_unknown_method id id [("temp", [1, 2])] ["temp"]
      "median" (by decide)⟩

/-- Claim C1 (counterexample): on a 3-row CSV with header `time,temp` whose
middle `time` cell is unparsable, the loader returns a 3-row table — the
bad row is not dropped; it is kept with an absent (`NaT`) time index and
sorted to the end. -/
theorem load_time_indexed_data_keeps_unparsable_row :
    load_time_indexed_data exParse ["time", "temp"]
        [["2020-01-02", "2"], ["bad", "9"], ["2020-01-01", "1"]] =
      Except.ok ⟨["temp"], [(some 0, ["1"]), (some 1, ["2"]), (none, ["9"])]⟩ ∧
    ([(some 0, ["1"]), (some 1, ["2"]), ((none : Option Int), ["9"])]).length = 3 :=
  ⟨rfl, rfl⟩

/-- Claim C1 (amended): loading a 3-row CSV with header `time,temp` in
which exactly one `time` value is unparsable yields a 3-row table whose
two parseable rows come first in ascending timestamp order, followed by
the unparsable row carrying an absent time index. -/
theorem load_time_indexed_data_three_rows_one_bad
    (parse : String → Option Int) (t1 v1 t2 v2 t3 v3 : String)
    (h : (parse t1 = none ∧ (∃ a, parse t2 = some a) ∧ (∃ b, parse t3 = some b)) ∨
         (parse t2 = none ∧ (∃ a, parse t1 = some a) ∧ (∃ b, parse t3 = some b)) ∨
         (parse t3 = none ∧ (∃ a, parse t1 = some a) ∧ (∃ b, parse t2 = some b))) :
    ∃ a b ra rb rc,
      load_time_indexed_data parse ["time", "temp"] [[t1, v1], [t2, v2], [t3, v3]] =
        Except.ok ⟨["temp"], [(some a, ra), (some b, rb), (none, rc)]⟩ ∧
      a ≤ b := by
  have hload :
      load_time_indexed_data parse ["time", "temp"] [[t1, v1], [t2, v2], [t3, v3]] =
        Except.ok ⟨["temp"],
          sortByKey [(parse t1, [v1]), (parse t2, [v2]), (parse t3, [v3])]⟩ := rfl
  rw [hload]
  rcases h with ⟨h1, ⟨a, h2⟩, ⟨b, h3⟩⟩ | ⟨h2, ⟨a, h1⟩, ⟨b, h3⟩⟩ | ⟨h3, ⟨a, h1⟩, ⟨b, h2⟩⟩
  · rw [h1, h2, h3]
    by_cases hab : a ≤ b
    · exact ⟨a, b, [v2], [v3], [v1], by simp [sortByKey, insertByKey, keyLE, hab], hab⟩
    · have hba := le_of_not_le hab
      exact ⟨b, a, [v3], [v2], [v1], by simp [sortByKey, insertByKey, keyLE, hab], hba⟩
  · rw [h1, h2, h3]
    by_cases hab : a ≤ b
    · exact ⟨a, b, [v1], [v3], [v2], by simp [sortByKey, insertByKey, keyLE, hab], hab⟩
    · have hba := le_of_not_le hab
      exact ⟨b, a, [v3], [v1], [v2], by simp [sortByKey, insertByKey, keyLE, hab], hba⟩
  · rw [h1, h2, h3]
    by_cases hab : a ≤ b
    · exact ⟨a, b, [v1], [v2], [v3], by simp [sortByKey, insertByKey, keyLE, hab], hab⟩
    · have hba := le_of_not_le hab
      exact ⟨b, a, [v2], [v1], [v3], by simp [sortByKey, insertByKey, keyLE, hab], hba⟩

theorem load_time_indexed_data_three_rows_one_bad_witness :
    ∃ a b ra rb rc,
      load_time_indexed_data exParse ["time", "temp"]
          [["2020-01-02", "2"], ["bad", "9"], ["2020-01-01", "1"]] =
        Except.ok ⟨["temp"], [(some a, ra), (some b, rb), (none, rc)]⟩ ∧
      a ≤ b :=
  load_time_indexed_data_three_rows_one_bad exParse
    "2020-01-02" "2" "bad" "9" "2020-01-01" "1"
    (Or.inr (Or.inl ⟨rfl, ⟨1, rfl⟩, ⟨0, rfl⟩⟩))

end Dashboard





